import Mathlib

/-!
Shallow embedding of the HTTP request/response/router core of the
`rust-full-stack` repository (crates `http` and `httperver`).

Conventions of the embedding:
* Rust `String`/`&str` become Lean `String`; byte length (`str::len`) becomes
  `String.utf8ByteSize`.
* `HashMap<String, String>` becomes an association list with insert-overwrite
  semantics (`hmInsert` / `hmLookup`); iteration order of the Rust map is
  unspecified, the list order stands in for one such order.
* A Rust function that can panic (`unwrap` on `None`, out-of-bounds `Vec`
  indexing) is modelled as returning `Option`, with `none` for the panic.
* Rust `str::split(pat)` for a one-character pattern keeps empty pieces and
  always yields at least one piece; `splitOnP` models it on character lists.
  `str::lines` splits on `'\n'`, strips one trailing `'\r'` from every
  `'\n'`-terminated line, and keeps a final unterminated line verbatim
  (dropping it when empty).  `str::split_whitespace` splits on the Unicode
  White_Space property (`rustIsWhitespace`) and drops empty pieces.
  `str::contains(pat)` is substring containment (`containsSub`).
-/

/-- Splits a character list at every character satisfying `p`, keeping empty
pieces; always returns at least one piece.  Models Rust `str::split` for a
single-character pattern (and, before filtering, `split_whitespace`). -/
def splitOnP (p : Char → Bool) : List Char → List (List Char)
  | [] => [[]]
  | x :: xs =>
    match splitOnP p xs with
    | [] => [[x]]
    | h :: t => if p x then [] :: h :: t else (x :: h) :: t

/-- Rust `s.split(c)` for a one-character pattern, as a list of strings. -/
def splitStr (s : String) (c : Char) : List String :=
  (splitOnP (fun x => x = c) s.toList).map (fun l => String.mk l)

/-- Rust `char::is_whitespace`: the Unicode White_Space property —
U+0009–U+000D, U+0020, U+0085, U+00A0, U+1680, U+2000–U+200A, U+2028,
U+2029, U+202F, U+205F, U+3000. -/
def rustIsWhitespace (c : Char) : Bool :=
  let n := c.toNat
  n = 0x09 || n = 0x0A || n = 0x0B || n = 0x0C || n = 0x0D || n = 0x20 ||
  n = 0x85 || n = 0xA0 || n = 0x1680 || (0x2000 ≤ n && n ≤ 0x200A) ||
  n = 0x2028 || n = 0x2029 || n = 0x202F || n = 0x205F || n = 0x3000

/-- Rust `str::split_whitespace`: split on Unicode whitespace, dropping
empty pieces. -/
def splitWhitespace (s : String) : List String :=
  ((splitOnP rustIsWhitespace s.toList).filter (fun l => l ≠ [])).map
    (fun l => String.mk l)

/-- `leadMatch pat l` holds when `pat` is an initial segment of `l`. -/
def leadMatch : List Char → List Char → Bool
  | [], _ => true
  | _ :: _, [] => false
  | p :: ps, x :: xs => p = x && leadMatch ps xs

/-- `hasSub pat l`: `pat` occurs contiguously somewhere inside `l`. -/
def hasSub (pat : List Char) : List Char → Bool
  | [] => leadMatch pat []
  | x :: xs => leadMatch pat (x :: xs) || hasSub pat xs

/-- Rust `s.contains(pat)`: substring containment. -/
def containsSub (s pat : String) : Bool :=
  hasSub pat.toList s.toList

/-- Strips one trailing `'\r'`, as Rust `str::lines` does on each
`'\n'`-terminated line. -/
def stripCR (l : List Char) : List Char :=
  if l.getLast? = some '\r' then l.dropLast else l

/-- Rust `str::lines`: split on `'\n'`; every piece but the last was
terminated by a `'\n'` and has one trailing `'\r'` stripped; the final,
unterminated piece is kept verbatim — trailing `'\r'` included — unless it
is empty, in which case it is not a line at all. -/
def rustLines (s : String) : List String :=
  let parts := splitOnP (fun x => x = '\n') s.toList
  let terminated := parts.dropLast.map stripCR
  let unterminated :=
    match parts.getLast? with
    | some [] => []
    | some l => [l]
    | none => []
  (terminated ++ unterminated).map (fun l => String.mk l)

/-- Association-list model of `HashMap::insert` (overwrite on duplicate key). -/
def hmInsert (m : List (String × String)) (k v : String) :
    List (String × String) :=
  (m.filter (fun kv => kv.1 ≠ k)) ++ [(k, v)]

/-- Association-list model of `HashMap::get`. -/
def hmLookup (m : List (String × String)) (k : String) : Option String :=
  (m.find? (fun kv => kv.1 = k)).map (fun kv => kv.2)

/-- `src/http/src/httprequest.rs`: `enum Method`. -/
inductive Method where
  | Get
  | Post
  | Uninitialized
deriving DecidableEq, Repr

/-- `impl From<&str> for Method`: `"GET"`, `"POST"`, else `Uninitialized`. -/
def Method.fromStr (s : String) : Method :=
  match s with
  | "GET" => Method.Get
  | "POST" => Method.Post
  | _ => Method.Uninitialized

/-- `src/http/src/httprequest.rs`: `enum Version`. -/
inductive Version where
  | V1_1
  | V2_0
  | Uninitialized
deriving DecidableEq, Repr

/-- `impl From<&str> for Version`: only the raw literal `HTTP\1.1` maps to
`V1_1`; everything else maps to `Uninitialized`. -/
def Version.fromStr (s : String) : Version :=
  match s with
  | "HTTP\\1.1" => Version.V1_1
  | _ => Version.Uninitialized

/-- `src/http/src/httprequest.rs`: `enum Resource`. -/
inductive Resource where
  | Path : String → Resource
deriving DecidableEq, Repr

/-- `src/http/src/httprequest.rs`: `struct HttpRequest`. -/
structure HttpRequest where
  method : Method
  version : Version
  resource : Resource
  headers : List (String × String)
  msg_body : String
deriving DecidableEq, Repr

/-- `process_req_line`: splits the request line on whitespace and unwraps the
first three tokens.  Rust panics (`unwrap` on `None`) when fewer than three
tokens are present: that is the `none` case. -/
def process_req_line (s : String) : Option (Method × Resource × Version) :=
  match splitWhitespace s with
  | m :: r :: v :: _ =>
      some (Method.fromStr m, Resource.Path r, Version.fromStr v)
  | _ => none

/-- `process_header_line`: splits on every `':'` and takes the first piece as
key and the second as value, each defaulting to `""` when absent. -/
def process_header_line (s : String) : String × String :=
  match splitStr s ':' with
  | [] => ("", "")
  | [k] => (k, "")
  | k :: v :: _ => (k, v)

/-- The line loop of `impl From<String> for HttpRequest`, threading the
mutable parse state; `none` when any line panics (`process_req_line`). -/
def parseLoop : List String → HttpRequest → Option HttpRequest
  | [], st => some st
  | line :: rest, st =>
    if containsSub line "HTTP" then
      match process_req_line line with
      | none => none
      | some (m, r, v) =>
          parseLoop rest { st with method := m, version := v, resource := r }
    else if containsSub line ":" then
      let kv := process_header_line line
      parseLoop rest { st with headers := hmInsert st.headers kv.1 kv.2 }
    else if line.length = 0 then
      parseLoop rest st
    else
      parseLoop rest { st with msg_body := line }

/-- `impl From<String> for HttpRequest`: iterate over `req.lines()` starting
from all-default fields; `none` models a panic during parsing. -/
def HttpRequest.fromString (req : String) : Option HttpRequest :=
  parseLoop (rustLines req)
    { method := Method.Uninitialized
      version := Version.Uninitialized
      resource := Resource.Path ""
      headers := []
      msg_body := "" }

/-- `src/http/src/httpresponse.rs`: `struct HttpResponse`.  The optional
headers map is an association list, standing in for `HashMap<&str, &str>`. -/
structure HttpResponse where
  version : String
  status_code : String
  status_text : String
  headers : Option (List (String × String))
  body : Option String
deriving DecidableEq, Repr

/-- `impl Default for HttpResponse`. -/
def HttpResponse.defaultResponse : HttpResponse :=
  { version := "HTTP/1.1"
    status_code := "200"
    status_text := "OK"
    headers := none
    body := none }

/-- `HttpResponse::new`: start from the default, overwrite the status code
when it differs from `"200"`, substitute the one-entry default headers map
when the caller supplied none, derive the status text from the (updated)
status code, and store the body as given. -/
def HttpResponse.new (status_code : String)
    (headers : Option (List (String × String))) (body : Option String) :
    HttpResponse :=
  let response := HttpResponse.defaultResponse
  let response :=
    if status_code ≠ "200" then { response with status_code := status_code }
    else response
  let response :=
    { response with
      headers :=
        match headers with
        | some _ => headers
        | none => some [("Content-Type", "text/html")] }
  let response :=
    { response with
      status_text :=
        match response.status_code with
        | "200" => "OK"
        | "400" => "Bad Request"
        | "404" => "Not Found"
        | "500" => "Internal Server Error"
        | _ => "Not Found" }
  let response := { response with body := body }
  response

/-- The `headers()` getter: `self.headers.clone().unwrap()` then fold the map
into `"<key>:<value>\r\n"` lines.  `none` models the panic when `headers` is
`None` (never the case for a value built by `new`). -/
def HttpResponse.headersStr (r : HttpResponse) : Option String :=
  r.headers.map (fun m =>
    m.foldl (fun acc kv => acc ++ kv.1 ++ ":" ++ kv.2 ++ "\r\n") "")

/-- `impl From<HttpResponse> for String`: the wire format
`"<version> <code> <text>\r\n<headers>Content-Length: <n>\r\n\r\n<body>"`.
The Rust code computes `n` as `res.body.unwrap().len()`, which panics when
`body` is `None`; that panic is the `none` case (the `headers()` panic on a
`None` map likewise). -/
def toWireString (r : HttpResponse) : Option String :=
  match r.headersStr, r.body with
  | some hs, some b =>
      some (r.version ++ " " ++ r.status_code ++ " " ++ r.status_text ++
        "\r\n" ++ hs ++ "Content-Length: " ++ toString b.utf8ByteSize ++
        "\r\n\r\n" ++ b)
  | _, _ => none

/-- `HttpResponse::send_response`: serializes (`String::from`, which can
panic on a `None` body) and then performs `let _ = write!(...); Ok(())`.
The second argument is the outcome the sink's `write!` would report; the
code discards it, so the returned value is `Ok(())` whenever serialization
succeeded, regardless of that outcome. -/
def send_response (r : HttpResponse) (writeOutcome : Except String Unit) :
    Option (Except String Unit) :=
  match toWireString r with
  | some _ => some (Except.ok ())
  | none => none

/-- The `route[1]` lookup of `Router::route` after `s.split("/")`:
`none` models the out-of-bounds panic when fewer than two pieces exist. -/
def routeSegment (s : String) : Option String :=
  (splitStr s '/').get? 1

/-- `src/httperver/src/router.rs`: `Router::route`.  The three handlers are
the external collaborators (`WebServiceHandler`, `StaticPageHandler`,
`PageNotFoundHandler`) — the router only calls `handle` on the selected one
and writes the serialized response to the stream.  The result is the byte
string written to the sink (`none` models a panic: the unguarded `route[1]`
lookup, or serialization of a body-less response inside `send_response`). -/
def Router.route (hApi hStatic hNotFound : HttpRequest → HttpResponse)
    (req : HttpRequest) : Option String :=
  match req.method with
  | Method.Get =>
    match req.resource with
    | Resource.Path s =>
      match routeSegment s with
      | some seg =>
          if seg = "api" then toWireString (hApi req)
          else toWireString (hStatic req)
      | none => none
  | _ => toWireString (hNotFound req)

theorem splitOnP_ne_nil (p : Char → Bool) (l : List Char) :
    splitOnP p l ≠ [] := by
  induction l with
  | nil => simp [splitOnP]
  | cons x xs ih =>
    unfold splitOnP
    split
    · simp
    · split <;> simp

theorem splitOnP_length (p : Char → Bool) (l : List Char) :
    (splitOnP p l).length = l.countP p + 1 := by
  induction l with
  | nil => simp [splitOnP]
  | cons x xs ih =>
    unfold splitOnP
    cases h : splitOnP p xs with
    | nil => exact absurd h (splitOnP_ne_nil p xs)
    | cons a t =>
      rw [h] at ih
      by_cases hp : p x <;>
        simp [hp, List.countP_cons, ← ih]

theorem new_body (c : String) (h : Option (List (String × String)))
    (bo : Option String) : (HttpResponse.new c h bo).body = bo := rfl

theorem new_headersStr (c : String) (h : Option (List (String × String)))
    (bo : Option String) :
    ∃ hs, (HttpResponse.new c h bo).headersStr = some hs := by
  cases h with
  | some m => exact ⟨_, rfl⟩
  | none => exact ⟨_, rfl⟩

theorem toWireString_some (r : HttpResponse) (hs b : String)
    (h1 : r.headersStr = some hs) (h2 : r.body = some b) :
    toWireString r =
      some (r.version ++ " " ++ r.status_code ++ " " ++ r.status_text ++
        "\r\n" ++ hs ++ "Content-Length: " ++ toString b.utf8ByteSize ++
        "\r\n\r\n" ++ b) := by
  unfold toWireString
  rw [h1, h2]

theorem routeSegment_of_head_slash (s : String)
    (h : s.toList.head? = some '/') : ∃ seg, routeSegment s = some seg := by
  unfold routeSegment
  have hlen : 1 < (splitStr s '/').length := by
    unfold splitStr
    rw [List.length_map, splitOnP_length]
    have hc : 0 < s.toList.countP (fun x => x = '/') := by
      simp only [String.toList] at h ⊢
      cases hl : s.data with
      | nil => rw [hl] at h; simp at h
      | cons a as =>
        rw [hl] at h
        simp only [List.head?_cons, Option.some.injEq] at h
        simp [List.countP_cons, h]
    omega
  exact ⟨_, List.get?_eq_get hlen⟩

theorem routeSegment_of_no_slash (s : String) (h : '/' ∉ s.toList) :
    routeSegment s = none := by
  unfold routeSegment
  apply List.get?_eq_none.mpr
  unfold splitStr
  rw [List.length_map, splitOnP_length]
  have hc : s.toList.countP (fun x => x = '/') = 0 := by
    apply List.countP_eq_zero.mpr
    intro a ha
    simp only [decide_eq_true_eq]
    intro heq
    exact h (heq ▸ ha)
  omega

theorem process_req_line_isSome (s : String)
    (h : 3 ≤ (splitWhitespace s).length) :
    ∃ x, process_req_line s = some x := by
  unfold process_req_line
  cases hl : splitWhitespace s with
  | nil => rw [hl] at h; simp at h
  | cons a t =>
    cases t with
    | nil => rw [hl] at h; simp at h
    | cons b t2 =>
      cases t2 with
      | nil => rw [hl] at h; simp at h
      | cons c t3 => exact ⟨_, rfl⟩

theorem parseLoop_total (lines : List String) :
    ∀ st : HttpRequest,
    (∀ line ∈ lines, containsSub line "HTTP" = true →
      3 ≤ (splitWhitespace line).length) →
    ∃ r, parseLoop lines st = some r := by
  induction lines with
  | nil => exact fun st _ => ⟨st, rfl⟩
  | cons line rest ih =>
    intro st h
    unfold parseLoop
    by_cases hc : containsSub line "HTTP" = true
    · obtain ⟨⟨m, r, v⟩, hx⟩ :=
        process_req_line_isSome line (h line (by simp) hc)
      rw [if_pos hc, hx]
      exact ih _ (fun l hl hcl => h l (List.mem_cons_of_mem _ hl) hcl)
    · rw [if_neg hc]
      split_ifs with h1 h2 <;>
        exact ih _ (fun l hl hcl => h l (List.mem_cons_of_mem _ hl) hcl)

/-- Claim C1, amended.  The request parser is total only on inputs whose
lines containing the substring "HTTP" all carry at least three
whitespace-delimited tokens; on such inputs (and on empty input, which
yields all-default fields) it returns a request and never fails.  A line
containing "HTTP" with fewer than three tokens makes `process_req_line`
panic (`unwrap` on `None`), so the parser is not total on all inputs. -/
theorem parse_total_on_wellformed_req_lines :
    (∀ input : String,
      (∀ line ∈ rustLines input, containsSub line "HTTP" = true →
        3 ≤ (splitWhitespace line).length) →
      ∃ r, HttpRequest.fromString input = some r) ∧
    HttpRequest.fromString "" =
      some { method := Method.Uninitialized, version := Version.Uninitialized,
             resource := Resource.Path "", headers := [], msg_body := "" } :=
  ⟨fun input h => parseLoop_total (rustLines input) _ h, rfl⟩

/-- Claim C1, counterexample to the claim as stated: the input `"HTTP"` is a
single line containing "HTTP" with one whitespace-delimited token, and
parsing it panics (modelled as `none`) instead of returning a request with
default fields. -/
theorem parse_fails_on_short_req_line :
    HttpRequest.fromString "HTTP" = none := rfl

/-- Witness for claim C1's amended theorem at the concrete input
`"GET / HTTP\1.1"`. -/
theorem parse_total_on_wellformed_req_lines_witness :
    ∃ r, HttpRequest.fromString "GET / HTTP\\1.1" = some r :=
  parse_total_on_wellformed_req_lines.1 "GET / HTTP\\1.1" (by decide)

/-- Claim C2.  Serializing a response whose body is absent fails: the Rust
serializer evaluates `res.body.unwrap().len()`, which panics when `body` is
`None`, instead of emitting `Content-Length: 0` as specified — the code is
at odds with its own `body()` getter, which maps an absent body to the
empty string. -/
theorem serialize_none_body_fails :
    toWireString (HttpResponse.new "200" none none) = none := rfl

/-- Claim C3, counterexample to the claim as stated: with an absent body
(and even a caller-supplied Content-Length header) serialization panics, so
the wire output does not contain `Content-Length: 0`. -/
theorem serialize_absent_body_no_content_length :
    toWireString
      (HttpResponse.new "404" (some [("Content-Length", "999")]) none) =
      none := rfl

/-- Claim C3, amended.  For every status code, caller headers map, and
present body, build-then-serialize succeeds and the serializer itself
appends `Content-Length: <byte length of body>` after the headers block —
the appended value depends only on the body, not on any Content-Length
entry the caller placed in the headers map. -/
theorem content_length_computed_from_body (code : String)
    (hdrs : Option (List (String × String))) (b : String) :
    ∃ hs, (HttpResponse.new code hdrs (some b)).headersStr = some hs ∧
      toWireString (HttpResponse.new code hdrs (some b)) =
        some ((HttpResponse.new code hdrs (some b)).version ++ " " ++
          (HttpResponse.new code hdrs (some b)).status_code ++ " " ++
          (HttpResponse.new code hdrs (some b)).status_text ++ "\r\n" ++
          hs ++ "Content-Length: " ++ toString b.utf8ByteSize ++
          "\r\n\r\n" ++ b) := by
  obtain ⟨hs, hhs⟩ := new_headersStr code hdrs (some b)
  exact ⟨hs, hhs, toWireString_some _ hs b hhs (new_body code hdrs (some b))⟩

/-- Claim C4, counterexample to the claim as stated: `send_response` returns
`Ok(())` even when the sink's write fails, so a write failure is not
surfaced in the result. -/
theorem send_response_ok_despite_failed_write :
    send_response (HttpResponse.new "404" none (some "xxxx"))
        (Except.error "io error") = some (Except.ok ()) ∧
    (some (Except.ok ()) : Option (Except String Unit)) ≠
      some (Except.error "io error") := by
  refine ⟨rfl, ?_⟩
  intro hcontra
  simp at hcontra

/-- Claim C4, amended.  `send_response` swallows write failures: whenever
serialization succeeds it returns `Ok(())` regardless of the outcome of the
write, and its only failure mode is the serialization panic (absent body);
it never surfaces the sink's error. -/
theorem send_response_swallows_write_failure (r : HttpResponse)
    (w : Except String Unit) :
    ((∃ s, toWireString r = some s) →
      send_response r w = some (Except.ok ())) ∧
    (send_response r w = some (Except.ok ()) ∨ send_response r w = none) := by
  constructor
  · rintro ⟨s, hs⟩
    unfold send_response
    rw [hs]
  · unfold send_response
    cases toWireString r <;> simp

/-- Witness for claim C4's amended theorem at a concrete response and a
concrete failing write. -/
theorem send_response_swallows_write_failure_witness :
    send_response (HttpResponse.new "200" none (some "hi"))
        (Except.error "broken pipe") = some (Except.ok ()) :=
  (send_response_swallows_write_failure _ _).1 ⟨_, rfl⟩

/-- Claim C5, counterexample to the claim as stated: on the scenario input
the parsed value of the "Host" header is not " localhost:3000" — the header
line is split at every colon and only the first two pieces are kept, so the
value is truncated at the second colon. -/
theorem greeting_host_value_truncated :
    (HttpRequest.fromString
        "GET /greeting HTTP\\1.1\r\nHost: localhost:3000\r\nAccept: */*\r\n\r\n").map
      (fun r => hmLookup r.headers "Host") ≠ some (some " localhost:3000") := by
  decide

/-- Claim C5, amended.  Parsing the scenario input yields method `Get`,
version `V1_1`, resource `/greeting`, and headers with "Host" mapped to
" localhost" (leading space kept, value truncated at the second colon —
exactly what the repository's own unit test expects) and "Accept" mapped to
" */*". -/
theorem greeting_scenario_parse :
    HttpRequest.fromString
        "GET /greeting HTTP\\1.1\r\nHost: localhost:3000\r\nAccept: */*\r\n\r\n" =
      some { method := Method.Get, version := Version.V1_1,
             resource := Resource.Path "/greeting",
             headers := [("Host", " localhost"), ("Accept", " */*")],
             msg_body := "" } ∧
    hmLookup [("Host", " localhost"), ("Accept", " */*")] "Host" =
      some " localhost" ∧
    hmLookup [("Host", " localhost"), ("Accept", " */*")] "Accept" =
      some " */*" :=
  ⟨rfl, rfl, rfl⟩

/-- Claim C6.  Router dispatch: a GET request whose segment at index 1 of
the slash-split path is "api" goes to the API handler, a GET request with
any other such segment goes to the static-page handler, and any non-GET
request goes to the not-found handler regardless of path; in each case the
router writes exactly the serialization of the selected handler's response
(the handlers are universally quantified, so the router constructs no
response of its own). -/
theorem router_dispatch (hA hS hN : HttpRequest → HttpResponse)
    (req : HttpRequest) :
    (req.method ≠ Method.Get →
      Router.route hA hS hN req = toWireString (hN req)) ∧
    (∀ s, req.method = Method.Get → req.resource = Resource.Path s →
      (routeSegment s = some "api" →
        Router.route hA hS hN req = toWireString (hA req)) ∧
      (∀ seg, routeSegment s = some seg → seg ≠ "api" →
        Router.route hA hS hN req = toWireString (hS req))) := by
  constructor
  · intro hm
    unfold Router.route
    cases hmm : req.method with
    | Get => exact absurd hmm hm
    | Post => rfl
    | Uninitialized => rfl
  · intro s hm hres
    constructor
    · intro hseg
      simp [Router.route, hm, hres, hseg]
    · intro seg hseg hne
      simp [Router.route, hm, hres, hseg, hne]

/-- Witness for claim C6 at concrete handlers and three concrete requests:
a POST request, a GET request to "/api/shipping", and a GET request to
"/greeting". -/
theorem router_dispatch_witness :
    Router.route (fun _ => HttpResponse.new "200" none (some "A"))
        (fun _ => HttpResponse.new "200" none (some "S"))
        (fun _ => HttpResponse.new "404" none (some "N"))
        { method := Method.Post, version := Version.Uninitialized,
          resource := Resource.Path "/x", headers := [], msg_body := "" } =
      toWireString (HttpResponse.new "404" none (some "N")) ∧
    Router.route (fun _ => HttpResponse.new "200" none (some "A"))
        (fun _ => HttpResponse.new "200" none (some "S"))
        (fun _ => HttpResponse.new "404" none (some "N"))
        { method := Method.Get, version := Version.V1_1,
          resource := Resource.Path "/api/shipping", headers := [],
          msg_body := "" } =
      toWireString (HttpResponse.new "200" none (some "A")) ∧
    Router.route (fun _ => HttpResponse.new "200" none (some "A"))
        (fun _ => HttpResponse.new "200" none (some "S"))
        (fun _ => HttpResponse.new "404" none (some "N"))
        { method := Method.Get, version := Version.V1_1,
          resource := Resource.Path "/greeting", headers := [],
          msg_body := "" } =
      toWireString (HttpResponse.new "200" none (some "S")) := by
  refine ⟨(router_dispatch _ _ _ _).1 (by decide),
    ((router_dispatch _ _ _ _).2 "/api/shipping" rfl rfl).1 rfl,
    ((router_dispatch _ _ _ _).2 "/greeting" rfl rfl).2 "greeting" rfl
      (by decide)⟩

/-- Claim C7.  A GET request whose resource path is exactly "/" does not
make the segment lookup go out of bounds: the slash-split of "/" has "" at
index 1, and the router dispatches the request to the static-page
handler. -/
theorem route_root_path_static (hA hS hN : HttpRequest → HttpResponse)
    (ver : Version) (hd : List (String × String)) (bo : String) :
    routeSegment "/" = some "" ∧
    Router.route hA hS hN
        (HttpRequest.mk Method.Get ver (Resource.Path "/") hd bo) =
      toWireString
        (hS (HttpRequest.mk Method.Get ver (Resource.Path "/") hd bo)) :=
  ⟨rfl, rfl⟩

/-- Claim C8.  The status-code-to-status-text mapping of `HttpResponse.new`
is total: "200" gives "OK", "400" gives "Bad Request", "404" gives
"Not Found", "500" gives "Internal Server Error", and every other code
falls back to "Not Found"; hence the status text is always one of those
four strings. -/
theorem status_text_mapping (c : String) (h : Option (List (String × String)))
    (bo : Option String) :
    (HttpResponse.new c h bo).status_text =
      (if c = "200" then "OK" else if c = "400" then "Bad Request"
       else if c = "404" then "Not Found"
       else if c = "500" then "Internal Server Error" else "Not Found") ∧
    ((HttpResponse.new c h bo).status_text = "OK" ∨
     (HttpResponse.new c h bo).status_text = "Bad Request" ∨
     (HttpResponse.new c h bo).status_text = "Not Found" ∨
     (HttpResponse.new c h bo).status_text = "Internal Server Error") := by
  have h1 : (HttpResponse.new c h bo).status_text =
      (if c = "200" then "OK" else if c = "400" then "Bad Request"
       else if c = "404" then "Not Found"
       else if c = "500" then "Internal Server Error" else "Not Found") := by
    by_cases hc : c = "200" <;>
      simp [HttpResponse.new, HttpResponse.defaultResponse, hc] <;>
      split <;> simp_all
  refine ⟨h1, ?_⟩
  rw [h1]
  split_ifs <;> simp

/-- Claim C9.  Version parsing recognizes exactly the single literal token
`HTTP\1.1` (with a backslash): that token maps to `V1_1`, every other
string — including the well-formed "HTTP/2.0" — maps to `Uninitialized`,
and no input ever produces the `V2_0` variant. -/
theorem version_recognizes_single_token :
    (∀ s : String, Version.fromStr s =
      if s = "HTTP\\1.1" then Version.V1_1 else Version.Uninitialized) ∧
    Version.fromStr "HTTP/2.0" = Version.Uninitialized ∧
    (∀ s : String, Version.fromStr s ≠ Version.V2_0) := by
  refine ⟨fun s => ?_, rfl, fun s => ?_⟩
  · by_cases hs : s = "HTTP\\1.1" <;> simp [Version.fromStr, hs]
  · by_cases hs : s = "HTTP\\1.1" <;> simp [Version.fromStr, hs]

/-- Claim C10.  For every path that begins with the character '/', the
slash-split has a segment at index 1, so the router's unguarded `route[1]`
lookup is in bounds; for a path containing no '/' at all the lookup at
index 1 is out of bounds, and a GET request with such a path makes the
router panic (modelled as `none`). -/
theorem route_segment_bounds :
    (∀ s : String, s.toList.head? = some '/' →
      ∃ seg, routeSegment s = some seg) ∧
    (∀ s : String, '/' ∉ s.toList → routeSegment s = none) ∧
    (∀ (hA hS hN : HttpRequest → HttpResponse) (req : HttpRequest)
      (s : String), req.method = Method.Get →
      req.resource = Resource.Path s → '/' ∉ s.toList →
      Router.route hA hS hN req = none) := by
  refine ⟨routeSegment_of_head_slash, routeSegment_of_no_slash, ?_⟩
  intro hA hS hN req s hm hres hns
  simp [Router.route, hm, hres, routeSegment_of_no_slash s hns]

/-- Witness for claim C10 at the concrete paths "/greeting" (in bounds) and
"localhost" (out of bounds, panicking the router on a GET request). -/
theorem route_segment_bounds_witness :
    (∃ seg, routeSegment "/greeting" = some seg) ∧
    routeSegment "localhost" = none ∧
    Router.route (fun _ => HttpResponse.defaultResponse)
        (fun _ => HttpResponse.defaultResponse)
        (fun _ => HttpResponse.defaultResponse)
        { method := Method.Get, version := Version.V1_1,
          resource := Resource.Path "localhost", headers := [],
          msg_body := "" } = none :=
  ⟨route_segment_bounds.1 "/greeting" rfl,
   route_segment_bounds.2.1 "localhost" (by decide),
   route_segment_bounds.2.2 _ _ _ _ "localhost" rfl rfl (by decide)⟩
